import Mathlib

/-!
Verification of the GradientStep core of the AIScholarship repository.

The repository's own code surface (per its README instructions) consists of
the gradient-descent formula fill-ins `sigmoid`, `output_formula`,
`error_formula`, `update_weights`, together with a checkpoint save/load
notebook.  The formula implementations themselves live in the exercise
notebook that is referenced but not vendored here, so they are modelled
from the specification's own descriptions; the checkpoint mechanism is
embedded from the notebook code.
-/

namespace GradientStep

/-- Modelled from the spec: `activate(z)` (the `sigmoid` fill-in, whose
implementation is not vendored in this repository) is the logistic function
`1 / (1 + e^(-z))`. -/
noncomputable def activate (z : ℝ) : ℝ := 1 / (1 + Real.exp (-z))

/-- Modelled from the spec: `predict(x, w, b)` (the `output_formula` fill-in,
not vendored here) computes `z = w·x + b` and returns `activate z`. -/
noncomputable def predict (x w : List ℝ) (b : ℝ) : ℝ :=
  activate ((List.zipWith (fun wi xi => wi * xi) w x).sum + b)

/-- Modelled from the spec: `update(x, y, w, b, learning_rate)` (the
`update_weights` fill-in, not vendored here) computes `p = predict x w b`,
`g = y - p`, and returns the updated weight vector and bias. -/
noncomputable def update (x : List ℝ) (y : ℝ) (w : List ℝ) (b lr : ℝ) :
    List ℝ × ℝ :=
  let p := predict x w b
  let g := y - p
  (List.zipWith (fun wi xi => wi + lr * g * xi) w x, b + lr * g)

/-- Modelled from the spec: the small clamping constant `ε` used by `error`
before taking a logarithm. -/
noncomputable def eps : ℝ := 1 / 10 ^ 8

/-- Modelled from the spec: `error` clamps `p` into `[ε, 1-ε]` before taking
the logarithm. -/
noncomputable def clamp (p : ℝ) : ℝ := max eps (min (1 - eps) p)

/-- A logarithm that surfaces an error condition on a non-positive argument,
modelling "a logarithm of zero" being a failure. -/
noncomputable def logOrFail (t : ℝ) : Option ℝ :=
  if t ≤ 0 then none else some (Real.log t)

/-- The log-loss value after clamping, as a total function. -/
noncomputable def errorVal (y p : ℝ) : ℝ :=
  -(y * Real.log (clamp p)) - (1 - y) * Real.log (1 - clamp p)

/-- Modelled from the spec: `error(y, p)` returns the log-loss contribution
`-y·ln(p) - (1-y)·ln(1-p)` for a single sample, clamping `p` into
`[ε, 1-ε]` first; a logarithm of a non-positive number would be an error. -/
noncomputable def error (y p : ℝ) : Option ℝ :=
  match logOrFail (clamp p), logOrFail (1 - clamp p) with
  | some lp, some lq => some (-(y * lp) - (1 - y) * lq)
  | _, _ => none

/-- Modelled from the spec: a mismatched feature/weight dimension is a
programming-contract violation and `predict` fails fast on it. -/
noncomputable def predictChecked (x w : List ℝ) (b : ℝ) : Option ℝ :=
  if x.length = w.length then some (predict x w b) else none

/-- Modelled from the spec: a mismatched feature/weight dimension is a
programming-contract violation and `update` fails fast on it. -/
noncomputable def updateChecked (x : List ℝ) (y : ℝ) (w : List ℝ) (b lr : ℝ) :
    Option (List ℝ × ℝ) :=
  if x.length = w.length then some (update x y w b lr) else none

/-- Modelled from the spec: `update` is applied once per sample, with updates
visible to the next sample's computation when run sequentially over a
batch. -/
noncomputable def train (samples : List (List ℝ × ℝ)) (w : List ℝ) (b lr : ℝ) :
    List ℝ × ℝ :=
  samples.foldl (fun wb s => update s.1 s.2 wb.1 wb.2 lr) (w, b)

end GradientStep

namespace Checkpointing

/-- The flat sizes of the parameter tensors of `fc_model.Network(i, o, h)`:
for each linear layer from `a` inputs to `b` outputs, a weight of size
`b * a` followed by a bias of size `b`, along the chain
`i -> h_0 -> ... -> h_last -> o` (as printed by the notebook's model). -/
def paramSizes (i o : ℕ) (h : List ℕ) : List ℕ :=
  (List.zip (i :: h) (h ++ [o])).flatMap (fun ab => [ab.2 * ab.1, ab.2])

/-- A network: its architecture and its parameter tensors (each stored as a
flat list of values). -/
structure Network where
  input_size : ℕ
  output_size : ℕ
  hidden_layers : List ℕ
  params : List (List ℝ)

/-- Modelled from the spec: `fc_model.Network(input, output, hidden)` is an
external-library constructor not vendored in this repository; it builds a
fresh network of the given architecture, its parameter tensor shapes fixed
by the architecture (the library's random initial values are modelled as
zeros — they are overwritten before use by `load_state_dict`). -/
noncomputable def Network.init (i o : ℕ) (h : List ℕ) : Network :=
  ⟨i, o, h, (paramSizes i o h).map (fun n => List.replicate n 0)⟩

/-- A network's `state_dict()`: its parameter tensors. -/
def Network.state_dict (m : Network) : List (List ℝ) := m.params

/-- Modelled from the spec: `model.load_state_dict(sd)` is external-library
code; as the notebook demonstrates, it succeeds only when every tensor in
`sd` has exactly the shape the model's architecture dictates, raising a
size-mismatch error otherwise, and on success replaces the model's
parameters with `sd`. -/
def Network.load_state_dict (m : Network) (sd : List (List ℝ)) :
    Option Network :=
  if sd.map List.length = paramSizes m.input_size m.output_size m.hidden_layers
  then some { m with params := sd }
  else none

/-- The checkpoint dictionary of the notebook: the model's input size, output
size, hidden layer sizes, and state dict. -/
structure Checkpoint where
  input_size : ℕ
  output_size : ℕ
  hidden_layers : List ℕ
  state_dict : List (List ℝ)

/-- The checkpoint dictionary built in the notebook for a model (the
notebook writes the literal sizes of its model; generically these are the
model's own sizes, with `hidden_layers` read off the model's layers). -/
def checkpointOf (m : Network) : Checkpoint :=
  ⟨m.input_size, m.output_size, m.hidden_layers, m.state_dict⟩

/-- Modelled from the spec: `torch.save` followed by `torch.load` is the
external serialization facility, assumed to return the saved dictionary
unchanged. -/
def saveThenLoadFile (c : Checkpoint) : Checkpoint := c

/-- The notebook's `load_checkpoint`: rebuild a `Network` from the stored
architecture and load the stored state dict into it. -/
noncomputable def load_checkpoint (c : Checkpoint) : Option Network :=
  (Network.init c.input_size c.output_size c.hidden_layers).load_state_dict
    c.state_dict

/-- A network is well-formed when its parameter tensors have exactly the
sizes its architecture dictates. -/
def Network.wf (m : Network) : Prop :=
  m.params.map List.length = paramSizes m.input_size m.output_size m.hidden_layers

end Checkpointing

namespace GradientStep

/- Basic facts about `activate`. -/

lemma activate_pos (z : ℝ) : 0 < activate z := by
  unfold activate
  positivity

lemma activate_lt_one (z : ℝ) : activate z < 1 := by
  unfold activate
  rw [div_lt_one (by positivity)]
  linarith [Real.exp_pos (-z)]

lemma activate_zero : activate 0 = 1 / 2 := by
  unfold activate
  rw [neg_zero, Real.exp_zero]
  norm_num

/- Facts about the clamping used by `error`. -/

lemma eps_pos : 0 < eps := by
  unfold eps
  norm_num

lemma eps_lt_half : eps < 1 / 2 := by
  unfold eps
  norm_num

lemma clamp_lb (p : ℝ) : eps ≤ clamp p := le_max_left _ _

lemma clamp_ub (p : ℝ) : clamp p ≤ 1 - eps := by
  unfold clamp
  have h := eps_lt_half
  exact max_le (by linarith) (min_le_left _ _)

lemma clamp_pos (p : ℝ) : 0 < clamp p := lt_of_lt_of_le eps_pos (clamp_lb p)

lemma one_sub_clamp_pos (p : ℝ) : 0 < 1 - clamp p := by
  have h1 := clamp_ub p
  have h2 := eps_pos
  linarith

lemma clamp_eq_self (p : ℝ) (h1 : eps ≤ p) (h2 : p ≤ 1 - eps) :
    clamp p = p := by
  unfold clamp
  rw [min_eq_right h2, max_eq_right h1]

lemma zipWith_left_of_length_eq (w x : List ℝ) (h : x.length = w.length) :
    List.zipWith (fun wi _ => wi) w x = w := by
  induction w generalizing x with
  | nil => simp
  | cons a t ih =>
    cases x with
    | nil => simp at h
    | cons c xt =>
      simp only [List.length_cons, Nat.add_right_cancel_iff] at h
      simp only [List.zipWith_cons_cons, List.cons.injEq, true_and]
      exact ih xt h

end GradientStep

/-- C1: for matching dimensions, `update x y w b lr` returns exactly
`w_i + lr * (y - predict x w b) * x_i` at every feature index `i` and
`b + lr * (y - predict x w b)` as the bias, with the gradient term having
sign `y - p`. -/
theorem C1_update_formula (x w : List ℝ) (y b lr : ℝ)
    (h : x.length = w.length) :
    (GradientStep.update x y w b lr).1.length = w.length ∧
    (∀ i, i < w.length →
      (GradientStep.update x y w b lr).1.getD i 0 =
        w.getD i 0 + lr * (y - GradientStep.predict x w b) * x.getD i 0) ∧
    (GradientStep.update x y w b lr).2 =
      b + lr * (y - GradientStep.predict x w b) := by
  unfold GradientStep.update
  refine ⟨?_, ?_, rfl⟩
  · simp [List.length_zipWith, h]
  · intro i hi
    have hx : i < x.length := by omega
    have hz : i < (List.zipWith
        (fun wi xi => wi + lr * (y - GradientStep.predict x w b) * xi)
        w x).length := by
      simp [List.length_zipWith]
      omega
    rw [List.getD_eq_getElem _ _ hz, List.getElem_zipWith,
      List.getD_eq_getElem _ _ hi, List.getD_eq_getElem _ _ hx]

/-- Witness for C1: applied to `x = (1,2)`, `w = (0,0)`, `y = 1`, `b = 0`,
`lr = 1/10`, giving the bias update formula. -/
theorem C1_witness :
    ([(1:ℝ), 2] : List ℝ).length = ([(0:ℝ), 0] : List ℝ).length ∧
    (GradientStep.update [1, 2] 1 [0, 0] 0 (1/10)).2 =
      0 + (1/10) * (1 - GradientStep.predict [1, 2] [0, 0] 0) :=
  ⟨rfl, (C1_update_formula [1, 2] [0, 0] 1 0 (1/10) rfl).2.2⟩

/-- C2: with `w = (0,0)`, `b = 0`, `x = (1,2)`, `y = 1`, `lr = 0.1`,
`predict` returns exactly `0.5` and `update` returns `w' = (0.05, 0.1)` and
`b' = 0.05`. -/
theorem C2_concrete_check :
    GradientStep.predict [1, 2] [0, 0] 0 = 0.5 ∧
    GradientStep.update [1, 2] 1 [0, 0] 0 0.1 = ([0.05, 0.1], 0.05) := by
  have hp : GradientStep.predict [1, 2] [0, 0] 0 = 0.5 := by
    unfold GradientStep.predict
    norm_num
    rw [GradientStep.activate_zero]
  refine ⟨hp, ?_⟩
  unfold GradientStep.update
  rw [hp]
  norm_num

/-- C4: `update` applied with `learning_rate = 0` returns parameters
identical to the input. -/
theorem C4_update_zero_lr (x w : List ℝ) (y b : ℝ)
    (h : x.length = w.length) :
    GradientStep.update x y w b 0 = (w, b) := by
  unfold GradientStep.update
  simp only [zero_mul, add_zero, zero_add]
  rw [GradientStep.zipWith_left_of_length_eq w x h]

/-- Witness for C4 at `x = (1)`, `w = (2)`, `y = 0`, `b = 3`. -/
theorem C4_witness :
    ([(1:ℝ)] : List ℝ).length = ([(2:ℝ)] : List ℝ).length ∧
    GradientStep.update [1] 0 [2] 3 0 = ([2], 3) :=
  ⟨rfl, C4_update_zero_lr [1] [2] 0 3 rfl⟩

/-- C7: when the feature and weight vectors have differing lengths, both
`predict` and `update` fail fast with an invalid-argument error instead of
truncating or padding. -/
theorem C7_dimension_mismatch (x w : List ℝ) (b y lr : ℝ)
    (h : x.length ≠ w.length) :
    GradientStep.predictChecked x w b = none ∧
    GradientStep.updateChecked x y w b lr = none := by
  unfold GradientStep.predictChecked GradientStep.updateChecked
  simp [h]

/-- C6: for `y ∈ {0,1}` and `p ∈ [0,1]` (including exactly 0 and 1),
`error y p` returns a value and never surfaces an error condition, because
`p` is clamped into `[ε, 1-ε]` before the logarithm is taken. -/
theorem C6_error_never_fails (y p : ℝ) (hy : y = 0 ∨ y = 1)
    (h0 : 0 ≤ p) (h1 : p ≤ 1) :
    GradientStep.error y p = some (GradientStep.errorVal y p) := by
  unfold GradientStep.error GradientStep.logOrFail GradientStep.errorVal
  rw [if_neg (not_le.mpr (GradientStep.clamp_pos p)),
    if_neg (not_le.mpr (GradientStep.one_sub_clamp_pos p))]

/-- Witness for C6 at the extreme point `y = 1`, `p = 0`. -/
theorem C6_witness :
    ((1:ℝ) = 0 ∨ (1:ℝ) = 1) ∧ (0:ℝ) ≤ 0 ∧ (0:ℝ) ≤ 1 ∧
    GradientStep.error 1 0 = some (GradientStep.errorVal 1 0) :=
  ⟨Or.inr rfl, le_rfl, by norm_num,
    C6_error_never_fails 1 0 (Or.inr rfl) le_rfl (by norm_num)⟩

/-- C8: on the valid (unclamped) probability range `[ε, 1-ε]`, the log-loss
with label `y = 1` strictly decreases as `p` increases, and with label
`y = 0` it strictly decreases as `p` decreases. -/
theorem C8_error_strict_monotone (p1 p2 : ℝ) (h1 : GradientStep.eps ≤ p1)
    (h12 : p1 < p2) (h2 : p2 ≤ 1 - GradientStep.eps) :
    GradientStep.errorVal 1 p2 < GradientStep.errorVal 1 p1 ∧
    GradientStep.errorVal 0 p1 < GradientStep.errorVal 0 p2 := by
  have e1 : GradientStep.clamp p1 = p1 :=
    GradientStep.clamp_eq_self p1 h1 (le_trans (le_of_lt h12) h2)
  have e2 : GradientStep.clamp p2 = p2 :=
    GradientStep.clamp_eq_self p2 (le_trans h1 (le_of_lt h12)) h2
  unfold GradientStep.errorVal
  rw [e1, e2]
  have hp1 : 0 < p1 := lt_of_lt_of_le GradientStep.eps_pos h1
  have hq2 : 0 < 1 - p2 := by
    have := GradientStep.eps_pos
    linarith
  have hlogA : Real.log p1 < Real.log p2 := Real.log_lt_log hp1 h12
  have hlogB : Real.log (1 - p2) < Real.log (1 - p1) :=
    Real.log_lt_log hq2 (by linarith)
  constructor <;> nlinarith [hlogA, hlogB]

/-- Witness for C8 at `p1 = 1/4`, `p2 = 1/2`. -/
theorem C8_witness :
    GradientStep.eps ≤ (1:ℝ)/4 ∧ (1:ℝ)/4 < 1/2 ∧
    (1:ℝ)/2 ≤ 1 - GradientStep.eps ∧
    (GradientStep.errorVal 1 (1/2) < GradientStep.errorVal 1 (1/4) ∧
     GradientStep.errorVal 0 (1/4) < GradientStep.errorVal 0 (1/2)) :=
  ⟨by norm_num [GradientStep.eps], by norm_num, by norm_num [GradientStep.eps],
    C8_error_strict_monotone (1/4) (1/2) (by norm_num [GradientStep.eps])
      (by norm_num) (by norm_num [GradientStep.eps])⟩

/-- Witness for C7 at `x = (1)`, `w = ()`. -/
theorem C7_witness :
    ([(1:ℝ)] : List ℝ).length ≠ ([] : List ℝ).length ∧
    GradientStep.predictChecked [1] [] 0 = none ∧
    GradientStep.updateChecked [1] 0 [] 0 0 = none :=
  ⟨by simp, C7_dimension_mismatch [1] [] 0 0 0 (by simp)⟩

/- Helper bounds for the finiteness invariant of iterated updates. -/

lemma abs_label_sub_activate_le_one (y z : ℝ) (hy : y = 0 ∨ y = 1) :
    |y - GradientStep.activate z| ≤ 1 := by
  have h1 := GradientStep.activate_pos z
  have h2 := GradientStep.activate_lt_one z
  rcases hy with rfl | rfl <;> rw [abs_le] <;> constructor <;> linarith

lemma abs_label_sub_predict_le_one (y : ℝ) (x w : List ℝ) (b : ℝ)
    (hy : y = 0 ∨ y = 1) : |y - GradientStep.predict x w b| ≤ 1 := by
  unfold GradientStep.predict
  exact abs_label_sub_activate_le_one y _ hy

lemma abs_zipWith_update_le (lr g M C : ℝ) (hlr : 0 ≤ lr) (hM : 0 ≤ M)
    (hg : |g| ≤ 1) :
    ∀ (w x : List ℝ), (∀ u ∈ w, |u| ≤ C) → (∀ u ∈ x, |u| ≤ M) →
    ∀ u ∈ List.zipWith (fun wi xi => wi + lr * g * xi) w x,
      |u| ≤ C + lr * M := by
  intro w
  induction w with
  | nil =>
    intro x _ _ u hu
    simp at hu
  | cons a t ih =>
    intro x hw hx u hu
    cases x with
    | nil => simp at hu
    | cons c xt =>
      simp only [List.zipWith_cons_cons, List.mem_cons] at hu
      rcases hu with h | h
      · subst h
        have ha : |a| ≤ C := hw a (List.mem_cons_self a t)
        have hc : |c| ≤ M := hx c (List.mem_cons_self c xt)
        have habs : |a + lr * g * c| ≤ |a| + |lr * g * c| := abs_add _ _
        have hmul : |lr * g * c| = lr * (|g| * |c|) := by
          rw [abs_mul, abs_mul, abs_of_nonneg hlr, mul_assoc]
        have h3 : |g| * |c| ≤ M := by
          nlinarith [abs_nonneg c, mul_nonneg (sub_nonneg.mpr hg) (abs_nonneg c)]
        have h4 : lr * (|g| * |c|) ≤ lr * M := mul_le_mul_of_nonneg_left h3 hlr
        rw [hmul] at habs
        linarith
      · exact ih xt (fun v hv => hw v (List.mem_cons_of_mem _ hv))
          (fun v hv => hx v (List.mem_cons_of_mem _ hv)) u h

/-- C9: under well-formed inputs (matching dimensions, binary labels, feature
values bounded by `M`) and a bounded nonnegative learning rate, the
parameters produced by arbitrarily many sequential `update` steps stay
bounded real numbers, with explicit finite bounds. -/
theorem C9_train_parameters_finite (samples : List (List ℝ × ℝ))
    (w : List ℝ) (b lr M C B : ℝ) (hlr : 0 ≤ lr) (hM : 0 ≤ M)
    (hs : ∀ s ∈ samples,
      s.1.length = w.length ∧ (s.2 = 0 ∨ s.2 = 1) ∧ ∀ u ∈ s.1, |u| ≤ M)
    (hw : ∀ u ∈ w, |u| ≤ C) (hb : |b| ≤ B) :
    (GradientStep.train samples w b lr).1.length = w.length ∧
    (∀ u ∈ (GradientStep.train samples w b lr).1,
      |u| ≤ C + samples.length * lr * M) ∧
    |(GradientStep.train samples w b lr).2| ≤ B + samples.length * lr := by
  induction samples generalizing w b C B with
  | nil =>
    simp only [GradientStep.train, List.foldl_nil, List.length_nil,
      Nat.cast_zero, zero_mul, add_zero]
    exact ⟨by trivial, hw, hb⟩
  | cons s rest ih =>
    obtain ⟨hlen, hy, hxM⟩ := hs s (List.mem_cons_self s rest)
    have hstep : GradientStep.train (s :: rest) w b lr =
        GradientStep.train rest (GradientStep.update s.1 s.2 w b lr).1
          (GradientStep.update s.1 s.2 w b lr).2 lr := rfl
    rw [hstep]
    have hg : |s.2 - GradientStep.predict s.1 w b| ≤ 1 :=
      abs_label_sub_predict_le_one s.2 s.1 w b hy
    have hw1len : (GradientStep.update s.1 s.2 w b lr).1.length = w.length := by
      simp [GradientStep.update, List.length_zipWith, hlen]
    have hw1 : ∀ u ∈ (GradientStep.update s.1 s.2 w b lr).1,
        |u| ≤ C + lr * M := by
      simp only [GradientStep.update]
      exact abs_zipWith_update_le lr _ M C hlr hM hg w s.1 hw hxM
    have hb1 : |(GradientStep.update s.1 s.2 w b lr).2| ≤ B + lr := by
      simp only [GradientStep.update]
      have habs : |b + lr * (s.2 - GradientStep.predict s.1 w b)| ≤
          |b| + |lr * (s.2 - GradientStep.predict s.1 w b)| := abs_add _ _
      have hmul : |lr * (s.2 - GradientStep.predict s.1 w b)| =
          lr * |s.2 - GradientStep.predict s.1 w b| := by
        rw [abs_mul, abs_of_nonneg hlr]
      nlinarith [abs_nonneg (s.2 - GradientStep.predict s.1 w b)]
    have hrest : ∀ s' ∈ rest,
        s'.1.length = (GradientStep.update s.1 s.2 w b lr).1.length ∧
        (s'.2 = 0 ∨ s'.2 = 1) ∧ ∀ u ∈ s'.1, |u| ≤ M := by
      intro s' hs'
      obtain ⟨h1, h2, h3⟩ := hs s' (List.mem_cons_of_mem _ hs')
      exact ⟨by rw [h1, hw1len], h2, h3⟩
    obtain ⟨ih1, ih2, ih3⟩ := ih (GradientStep.update s.1 s.2 w b lr).1
      (GradientStep.update s.1 s.2 w b lr).2 (C + lr * M) (B + lr)
      hrest hw1 hb1
    refine ⟨by rw [ih1, hw1len], ?_, ?_⟩
    · intro u hu
      have := ih2 u hu
      have hcast : ((s :: rest).length : ℝ) = (rest.length : ℝ) + 1 := by
        push_cast [List.length_cons]
        ring
      rw [hcast]
      nlinarith [this]
    · have hcast : ((s :: rest).length : ℝ) = (rest.length : ℝ) + 1 := by
        push_cast [List.length_cons]
        ring
      rw [hcast]
      linarith [ih3]

/-- Witness for C9: one sample `((1), 1)` starting from `w = (0)`, `b = 0`,
`lr = 1/10`, `M = 1`, `C = 0`, `B = 0`. -/
theorem C9_witness :
    (0:ℝ) ≤ 1/10 ∧ (0:ℝ) ≤ 1 ∧
    (GradientStep.train [([1], 1)] [0] 0 (1/10)).1.length =
      ([(0:ℝ)] : List ℝ).length ∧
    (∀ u ∈ (GradientStep.train [([1], 1)] [0] 0 (1/10)).1,
      |u| ≤ 0 + ([([(1:ℝ)], (1:ℝ))] : List (List ℝ × ℝ)).length * (1/10) * 1) ∧
    |(GradientStep.train [([1], 1)] [0] 0 (1/10)).2| ≤
      0 + ([([(1:ℝ)], (1:ℝ))] : List (List ℝ × ℝ)).length * (1/10) := by
  refine ⟨by norm_num, by norm_num, ?_⟩
  exact C9_train_parameters_finite [([1], 1)] [0] 0 (1/10) 1 0 0
    (by norm_num) (by norm_num)
    (by
      intro s hs
      simp only [List.mem_singleton] at hs
      subst hs
      refine ⟨rfl, Or.inr rfl, ?_⟩
      intro u hu
      simp only [List.mem_singleton] at hu
      subst hu
      norm_num)
    (by
      intro u hu
      simp only [List.mem_singleton] at hu
      subst hu
      norm_num)
    (by norm_num)

/-- C3: for every real input `z`, `activate z` lies strictly between 0 and 1,
and `activate 0 = 0.5`. -/
theorem C3_activate_range_and_zero :
    (∀ z : ℝ, 0 < GradientStep.activate z ∧ GradientStep.activate z < 1) ∧
    GradientStep.activate 0 = 0.5 := by
  refine ⟨fun z => ⟨GradientStep.activate_pos z, GradientStep.activate_lt_one z⟩, ?_⟩
  rw [GradientStep.activate_zero]
  norm_num

/-- C5: `activate` is strictly monotonically increasing: `z1 < z2` implies
`activate z1 < activate z2`. -/
theorem C5_activate_strictMono (z1 z2 : ℝ) (h : z1 < z2) :
    GradientStep.activate z1 < GradientStep.activate z2 := by
  unfold GradientStep.activate
  have h1 : (0:ℝ) < 1 + Real.exp (-z2) := by positivity
  have h2 : Real.exp (-z2) < Real.exp (-z1) := Real.exp_lt_exp.mpr (by linarith)
  rw [div_lt_div_iff₀ (by positivity) (by positivity)]
  linarith

/-- Witness for C5 at the concrete pair `(0, 1)`. -/
theorem C5_witness :
    (0:ℝ) < 1 ∧ GradientStep.activate 0 < GradientStep.activate 1 :=
  ⟨by norm_num, C5_activate_strictMono 0 1 (by norm_num)⟩

/-- C10: saving a checkpoint dictionary with a model's input size, output
size, hidden layer sizes and state dict, then calling `load_checkpoint` on
the saved file, returns a model whose architecture and parameters equal the
saved ones. -/
theorem C10_checkpoint_roundtrip (m : Checkpointing.Network)
    (hm : m.wf) :
    Checkpointing.load_checkpoint
      (Checkpointing.saveThenLoadFile (Checkpointing.checkpointOf m)) =
    some m := by
  obtain ⟨i, o, h, ps⟩ := m
  unfold Checkpointing.Network.wf at hm
  simp only at hm
  unfold Checkpointing.load_checkpoint Checkpointing.saveThenLoadFile
    Checkpointing.checkpointOf Checkpointing.Network.load_state_dict
    Checkpointing.Network.state_dict Checkpointing.Network.init
  simp only
  rw [if_pos hm]

/-- Witness for C10 at a concrete one-hidden-layer model. -/
theorem C10_witness :
    (Checkpointing.Network.mk 1 1 [1] [[0], [0], [0], [0]]).wf ∧
    Checkpointing.load_checkpoint
      (Checkpointing.saveThenLoadFile
        (Checkpointing.checkpointOf
          (Checkpointing.Network.mk 1 1 [1] [[0], [0], [0], [0]]))) =
    some (Checkpointing.Network.mk 1 1 [1] [[0], [0], [0], [0]]) :=
  ⟨by rfl,
    C10_checkpoint_roundtrip
      (Checkpointing.Network.mk 1 1 [1] [[0], [0], [0], [0]]) (by rfl)⟩
